import Mathlib

set_option linter.unnecessarySeqFocus false

/-
Verification development for the connect-5-server repository.

The definitions below are a shallow embedding of the TypeScript sources:
the game engine (models/game.ts), the room aggregate (models/game_room.ts),
the settings parsing (models/game_room_settings.ts), the user model
(models/user.ts), the HTTP controllers (controllers/room_controller.ts),
the user manager (helpers/user_manager.ts), the room manager
(helpers/room_manager.ts) and the socket controller
(controllers/socket_controller.ts).

JavaScript numbers are modelled as integers (the data model is an integer
grid with integer board sizes); JavaScript arrays with holes, as produced
by `new Array(n)`, are modelled as lists of options, where `none` is a
hole; exceptions are modelled with `Except`, where `JsError.typeError`
stands for a TypeError raised by a property access on `undefined`.
-/

/-! ## Game engine (models/game.ts) -/

structure Point where
  x : Int
  y : Int
  deriving DecidableEq, Repr

inductive Side where
  | Black
  | White
  deriving DecidableEq, Repr

def toggleSide : Side → Side
  | Side.Black => Side.White
  | Side.White => Side.Black

inductive BoardSpot where
  | Empty
  | Black
  | White
  deriving DecidableEq, Repr

inductive GameError where
  | OutOfBounds
  | SpotTaken
  | NoStepsToUndo
  deriving DecidableEq, Repr

structure WinnerDetails where
  side : Side
  points : List Point
  deriving DecidableEq, Repr

/-- Runtime errors of the JavaScript engine: a thrown `GameError` value, a
TypeError (property access on `undefined`), or a RangeError (invalid array
length). -/
inductive JsError where
  | typeError
  | rangeError
  | thrownGameError (e : GameError)
  deriving DecidableEq, Repr

/-- The board. The spot storage is modelled as a total function on points;
every access in the source is guarded by `isValid`, so this agrees with the
`size × size` array of the constructor. -/
structure Board where
  size : Int
  spots : Point → BoardSpot

def Board.new (size : Int) : Board :=
  { size := size, spots := fun _ => BoardSpot.Empty }

/-- `isValid`: `0 <= point.x && point.x < this.size && 0 <= point.y && point.y < this.size`. -/
def Board.isValid (b : Board) (p : Point) : Bool :=
  decide (0 ≤ p.x) && decide (p.x < b.size) && decide (0 ≤ p.y) && decide (p.y < b.size)

/-- The in-bounds array write `this.spots[point.x][point.y] = spot`. -/
def Board.setSpotD (b : Board) (p : Point) (s : BoardSpot) : Board :=
  { b with spots := fun q => if q = p then s else b.spots q }

/-- `for (let i = 0; i < size; i++)` over an integer bound. -/
def jsRange (size : Int) : List Nat := List.range size.toNat

/-- `isFull`: `this.spots.every(col => col.every(spot => spot !== BoardSpot.Empty))`. -/
def Board.isFull (b : Board) : Bool :=
  (jsRange b.size).all fun i =>
    (jsRange b.size).all fun j =>
      decide (b.spots { x := (i : Int), y := (j : Int) } ≠ BoardSpot.Empty)

structure Game where
  board : Board
  steps : List Point
  currentSide : Side
  initialSide : Side
  shouldRecalculateWinner : Bool
  winnerCache : Option WinnerDetails

def Game.WIN_CONSEC_SPOTS : Nat := 5

/-- The `Game` constructor; the source defaults `initialSide` to Black. -/
def Game.new (size : Int) (initialSide : Side) : Game :=
  { board := Board.new size
    steps := []
    currentSide := initialSide
    initialSide := initialSide
    shouldRecalculateWinner := true
    winnerCache := none }

/-- `currentSide === Side.Black ? BoardSpot.Black : BoardSpot.White`. -/
def spotOfSide (s : Side) : BoardSpot :=
  if s = Side.Black then BoardSpot.Black else BoardSpot.White

/-- `Game.addStep(point)`. Mirrors the execution order of the method: the
`getSpot` call throws OutOfBounds before any check, the SpotTaken throw
happens before any mutation, and the success path sets the spot, appends to
the history, marks the winner cache dirty, and toggles the side. The pair
returns the state at exit together with the thrown error, if any. -/
def Game.addStepRun (g : Game) (p : Point) : Game × Option GameError :=
  if g.board.isValid p = false then (g, some GameError.OutOfBounds)
  else if g.board.spots p ≠ BoardSpot.Empty then (g, some GameError.SpotTaken)
  else
    ({ g with
        board := g.board.setSpotD p (spotOfSide g.currentSide)
        steps := g.steps ++ [p]
        shouldRecalculateWinner := true
        currentSide := toggleSide g.currentSide }, none)

/-- `new Array(len)`: an array of `len` holes; a negative length raises a
RangeError. -/
def jsNewArray (len : Int) : Except JsError (List (Option Point)) :=
  if 0 ≤ len then Except.ok (List.replicate len.toNat none)
  else Except.error JsError.rangeError

/-- `Game.generate(length, generator)`:
`new Array(length).map((_, index) => generator(index))`.
`Array.prototype.map` invokes its callback only on assigned indices, so the
holes of `new Array(length)` are passed through unchanged. -/
def Game.generate (length : Int) (generator : Nat → Point) : Except JsError (List (Option Point)) :=
  match jsNewArray length with
  | Except.error e => Except.error e
  | Except.ok arr => Except.ok (arr.mapIdx fun i slot => slot.map fun _ => generator i)

/-- The scanning loop of `Game.getWinDetails`. Each iterated value is the
content of one array slot; on a hole (`undefined`), the call
`this.board.getSpot(point)` raises a TypeError when `isValid` reads
`point.x`, and on an out-of-bounds point it throws OutOfBounds. -/
def Game.getWinDetailsAux (b : Board) (prevSpot : BoardSpot) (consec : List Point) :
    List (Option Point) → Except JsError (Option WinnerDetails)
  | [] => Except.ok none
  | slot :: rest =>
    match slot with
    | none => Except.error JsError.typeError
    | some q =>
      if b.isValid q = false then Except.error (JsError.thrownGameError GameError.OutOfBounds)
      else
        let spot := b.spots q
        if spot = prevSpot ∧ spot ≠ BoardSpot.Empty then
          let consec2 := consec ++ [q]
          if Game.WIN_CONSEC_SPOTS ≤ consec2.length then
            Except.ok (some { side := if spot = BoardSpot.Black then Side.Black else Side.White
                              points := consec2 })
          else Game.getWinDetailsAux b prevSpot consec2 rest
        else Game.getWinDetailsAux b spot [q] rest

/-- `Game.getWinDetails(points)`. -/
def Game.getWinDetailsCode (b : Board) (points : List (Option Point)) :
    Except JsError (Option WinnerDetails) :=
  if points.length < Game.WIN_CONSEC_SPOTS then Except.ok none
  else Game.getWinDetailsAux b BoardSpot.Empty [] points

/-- The lines pushed by one iteration `i` of the loop in `Game.getWinner`:
horizontal, vertical, the slope-down pair, and the slope-up pair. -/
def Game.linesFor (size : Int) (i : Nat) : Except JsError (List (List (Option Point))) := do
  let horiz ← Game.generate size fun j => { x := (i : Int), y := (j : Int) }
  let vert ← Game.generate size fun j => { x := (j : Int), y := (i : Int) }
  let down1 ← Game.generate (size - (i : Int)) fun j => { x := (i : Int) + (j : Int), y := (j : Int) }
  let downExtra ←
    if 0 < i then do
      let down2 ← Game.generate (size - (i : Int)) fun j => { x := (j : Int), y := (i : Int) + (j : Int) }
      pure [down2]
    else pure []
  let up1 ← Game.generate ((i : Int) + 1) fun j => { x := (i : Int) - (j : Int), y := (j : Int) }
  let upExtra ←
    if 0 < i then do
      let up2 ← Game.generate (size - (i : Int)) fun j => { x := (i : Int) + (j : Int), y := size - (j : Int) - 1 }
      pure [up2]
    else pure []
  pure ([horiz, vert, down1] ++ downExtra ++ [up1] ++ upExtra)

/-- `Game.getWinner()`: build all lines, map `getWinDetails` over them, and
return the first hit. -/
def Game.getWinnerCode (g : Game) : Except JsError (Option WinnerDetails) := do
  let groups ← (jsRange g.board.size).mapM (Game.linesFor g.board.size)
  let results ← groups.flatten.mapM (Game.getWinDetailsCode g.board)
  pure (results.findSome? id)

/-- The `winner` getter: recompute through `getWinner` when the cache is
dirty, else serve the cache. Returns the value together with the updated
game. -/
def Game.winnerGet (g : Game) : Except JsError (Option WinnerDetails × Game) :=
  if g.shouldRecalculateWinner then
    match Game.getWinnerCode g with
    | Except.error e => Except.error e
    | Except.ok w => Except.ok (w, { g with winnerCache := w, shouldRecalculateWinner := false })
  else Except.ok (g.winnerCache, g)

/-! Scenario board: Black occupies (0,0)…(0,4) on a size-9 board, White
plays on row 8 in between. -/

def winDemoSteps : List Point :=
  [{ x := 0, y := 0 }, { x := 8, y := 8 }, { x := 0, y := 1 }, { x := 8, y := 7 },
   { x := 0, y := 2 }, { x := 8, y := 6 }, { x := 0, y := 3 }, { x := 8, y := 5 },
   { x := 0, y := 4 }]

def winDemoGame : Game :=
  winDemoSteps.foldl (fun g p => (Game.addStepRun g p).1) (Game.new 9 Side.Black)

/-! ## Settings (models/game_room_settings.ts) -/

/-- A JavaScript value as found in a parsed JSON body: absent/`undefined`,
a number (modelled as an integer), a boolean, or a string. -/
inductive JsVal where
  | undef
  | num (n : Int)
  | boolean (b : Bool)
  | str (s : String)
  deriving DecidableEq, Repr

/-- The fields read from `req.body.settings` by `GameRoomSettings.fromJson`. -/
structure SettingsJson where
  boardSize : JsVal
  allowSpectators : JsVal
  isPublic : JsVal
  deriving DecidableEq, Repr

inductive GameRoomSettingsError where
  | invalid_board_size
  deriving DecidableEq, Repr

structure GameRoomSettings where
  boardSize : Int
  allowSpectators : Bool
  isPublic : Bool
  deriving DecidableEq, Repr

/-- `new GameRoomSettings()` with all constructor defaults. -/
def GameRoomSettings.mkDefault : GameRoomSettings :=
  { boardSize := 15, allowSpectators := true, isPublic := true }

/-- `GameRoomSettings.fromJson(json)`. A missing body yields the defaults;
each field falls back to its default when it does not have the expected
runtime type; only the range of `boardSize` is checked. -/
def GameRoomSettings.fromJson : Option SettingsJson → Except GameRoomSettingsError GameRoomSettings
  | none => Except.ok GameRoomSettings.mkDefault
  | some json =>
    let boardSize : Int := match json.boardSize with | JsVal.num n => n | _ => 15
    let allowSpectators : Bool := match json.allowSpectators with | JsVal.boolean b => b | _ => true
    let isPublic : Bool := match json.isPublic with | JsVal.boolean b => b | _ => true
    if boardSize < 9 ∨ 19 < boardSize then Except.error GameRoomSettingsError.invalid_board_size
    else Except.ok { boardSize := boardSize, allowSpectators := allowSpectators, isPublic := isPublic }

/-- The `typeof x === 'boolean' ? x : true` fallback used for the two
boolean settings fields. -/
def boolField : JsVal → Bool
  | JsVal.boolean b => b
  | _ => true

/-! ## Users and the room aggregate (models/user.ts, models/game_room.ts) -/

structure User where
  id : String
  nickname : Option String
  isConnected : Bool
  deriving DecidableEq, Repr

inductive GameRoomRole where
  | Player1
  | Player2
  | Spectator
  deriving DecidableEq, Repr

/-- `gameRoomRoleFrom(n)`: only the numbers 1, 2, 3 parse to a role. -/
def gameRoomRoleFrom : JsVal → Option GameRoomRole
  | JsVal.num 1 => some GameRoomRole.Player1
  | JsVal.num 2 => some GameRoomRole.Player2
  | JsVal.num 3 => some GameRoomRole.Spectator
  | _ => none

structure GameRoom where
  id : String
  settings : GameRoomSettings
  player1 : Option User
  player2 : Option User
  spectators : List User
  game : Option Game
  gameInProgress : Bool
  player1Restart : Bool
  player2Restart : Bool

/-- `new GameRoom(id, settings)` with the constructor defaults. -/
def GameRoom.new (id : String) (settings : GameRoomSettings) : GameRoom :=
  { id := id, settings := settings, player1 := none, player2 := none, spectators := []
    game := none, gameInProgress := false, player1Restart := false, player2Restart := false }

/-- `canResetGame`: the game exists, is not in progress, and every occupied
seat has voted to restart. -/
def GameRoom.canResetGame (r : GameRoom) : Bool :=
  match r.game with
  | none => false
  | some _ =>
    !r.gameInProgress && (r.player1Restart || r.player1.isNone)
      && (r.player2Restart || r.player2.isNone)

/-- `resetGame()`: clear both votes and discard the game. -/
def GameRoom.resetGame (r : GameRoom) : GameRoom :=
  { r with player1Restart := false, player2Restart := false, game := none }

/-- `isEmpty`. -/
def GameRoom.isEmpty (r : GameRoom) : Bool :=
  r.player1.isNone && r.player2.isNone && decide (r.spectators.length = 0)

/-- `canStartGame`: both seats occupied. -/
def GameRoom.canStartGame (r : GameRoom) : Bool :=
  r.player1.isSome && r.player2.isSome

/-- `startGame()`: a fresh game sized by the settings, initial side Black
(the constructor default), and the in-progress flag set. -/
def GameRoom.startGame (r : GameRoom) : GameRoom :=
  { r with game := some (Game.new r.settings.boardSize Side.Black), gameInProgress := true }

/-- `endGame()`. -/
def GameRoom.endGame (r : GameRoom) : GameRoom :=
  { r with gameInProgress := false }

/-- `onUserJoin(role, user)`: the updated room paired with the returned
boolean. -/
def GameRoom.onUserJoin (r : GameRoom) (role : GameRoomRole) (user : User) : GameRoom × Bool :=
  match role with
  | GameRoomRole.Player1 =>
    if r.player1.isNone && !r.gameInProgress then ({ r with player1 := some user }, true)
    else (r, false)
  | GameRoomRole.Player2 =>
    if r.player2.isNone && !r.gameInProgress then ({ r with player2 := some user }, true)
    else (r, false)
  | GameRoomRole.Spectator =>
    if r.settings.allowSpectators then ({ r with spectators := r.spectators ++ [user] }, true)
    else (r, false)

/-- `indexOf` followed by `splice(index, 1)`: remove the first occurrence,
if any. -/
def spliceFirst (u : User) : List User → List User
  | [] => []
  | v :: vs => if v = u then vs else v :: spliceFirst u vs

/-- `onUserLeave(role, user)`: clear the seat and its restart vote for a
player role, remove the first matching spectator otherwise. -/
def GameRoom.onUserLeave (r : GameRoom) (role : GameRoomRole) (user : User) : GameRoom :=
  match role with
  | GameRoomRole.Player1 => { r with player1 := none, player1Restart := false }
  | GameRoomRole.Player2 => { r with player2 := none, player2Restart := false }
  | GameRoomRole.Spectator => { r with spectators := spliceFirst user r.spectators }

/-! ## Socket events (socket_events.ts) and the restart handler
(controllers/socket_controller.ts) -/

inductive RoomEventDesc where
  | userJoined
  | userLeft
  | userDisconnected
  | userReconnected
  | userSetRestart
  | startGame
  | stepAdded
  | gameEnded
  | gameReset
  deriving DecidableEq, Repr

/-- The tail of the restart-game socket handler, after the vote has been
recorded: reset when possible, then start immediately when both seats are
filled; the emitted events are user-set-restart followed by start-game or
game-reset as dictated by the two flags. -/
def SocketController.restartFinish (room : GameRoom) : GameRoom × List RoomEventDesc :=
  if room.canResetGame then
    let r2 := room.resetGame
    if r2.canStartGame then (r2.startGame, [RoomEventDesc.userSetRestart, RoomEventDesc.startGame])
    else (r2, [RoomEventDesc.userSetRestart, RoomEventDesc.gameReset])
  else (room, [RoomEventDesc.userSetRestart])

/-- The restart-game socket handler: ignored for spectators, while a game is
in progress, or when no game exists; a repeated vote from the same seat is a
no-op; otherwise the vote is recorded and `restartFinish` runs. -/
def SocketController.restartHandler (room : GameRoom) (role : GameRoomRole) :
    GameRoom × List RoomEventDesc :=
  if role == GameRoomRole.Spectator || room.gameInProgress || room.game.isNone then (room, [])
  else
    match role with
    | GameRoomRole.Spectator => (room, [])
    | GameRoomRole.Player1 =>
      if room.player1Restart then (room, [])
      else SocketController.restartFinish { room with player1Restart := true }
    | GameRoomRole.Player2 =>
      if room.player2Restart then (room, [])
      else SocketController.restartFinish { room with player2Restart := true }

/-- The seat inspected by a given player role. -/
def GameRoom.seatOf (r : GameRoom) (role : GameRoomRole) : Option User :=
  match role with
  | GameRoomRole.Player1 => r.player1
  | GameRoomRole.Player2 => r.player2
  | GameRoomRole.Spectator => none

/-- The restart vote of a given player role. -/
def GameRoom.voteOf (r : GameRoom) (role : GameRoomRole) : Bool :=
  match role with
  | GameRoomRole.Player1 => r.player1Restart
  | GameRoomRole.Player2 => r.player2Restart
  | GameRoomRole.Spectator => false

/-- The room after the handler records the given seat's restart vote. -/
def GameRoom.voteSet (r : GameRoom) (role : GameRoomRole) : GameRoom :=
  match role with
  | GameRoomRole.Player1 => { r with player1Restart := true }
  | GameRoomRole.Player2 => { r with player2Restart := true }
  | GameRoomRole.Spectator => r

/-! ## Room directory and the HTTP controllers
(helpers/room_manager.ts, controllers/room_controller.ts) -/

/-- The room list of the shared `RoomManager`, as initialized at module load:
one room with id `ok` and default settings. -/
def RoomManager.initialRooms : List GameRoom :=
  [GameRoom.new "ok" GameRoomSettings.mkDefault]

/-- `findRoomById`. -/
def findRoomById (rooms : List GameRoom) (roomId : String) : Option GameRoom :=
  rooms.find? fun r => r.id == roomId

/-- `getPublicRooms`. -/
def getPublicRooms (rooms : List GameRoom) : List GameRoom :=
  rooms.filter fun r => r.settings.isPublic

/-- `String.prototype.trim()`: drop whitespace from both ends. -/
def jsTrim (s : String) : String :=
  String.mk (((s.data.dropWhile Char.isWhitespace).reverse.dropWhile Char.isWhitespace).reverse)

/-- `validateRoomId` applied to a request field, returning the string when
it passes: a string whose trimmed length is positive and whose length is at
most `ROOM_ID_MAX_LENGTH = 16`. -/
def roomIdOf : JsVal → Option String
  | JsVal.str s => if 0 < (jsTrim s).length ∧ s.length ≤ 16 then some s else none
  | _ => none

/-- `validateNickname` plus the trim applied by the controllers: a string
whose trimmed length is in (0, 16] yields the trimmed string, anything else
yields `undefined`. -/
def nicknameOf : JsVal → Option String
  | JsVal.str s => if 0 < (jsTrim s).length ∧ (jsTrim s).length ≤ 16 then some (jsTrim s) else none
  | _ => none

inductive CreateRoomError where
  | invalid_board_size
  | invalid_room_id
  | room_id_taken
  | invalid_role
  deriving DecidableEq, Repr

/-- The body of a create-room request. -/
structure CreateRoomRequest where
  settings : Option SettingsJson
  id : JsVal
  role : JsVal
  nickname : JsVal

/-- `postCreateRoom`: validate settings, room id and role in that order,
check the directory for a clash, then create the room, seat the creator and
register them as pending. The success value is the updated room list and
pending list. -/
def postCreateRoom (rooms : List GameRoom) (pending : List (User × GameRoomRole))
    (req : CreateRoomRequest) (newUserId : String) :
    Except CreateRoomError (List GameRoom × List (User × GameRoomRole)) :=
  match GameRoomSettings.fromJson req.settings with
  | Except.error _ => Except.error CreateRoomError.invalid_board_size
  | Except.ok settings =>
    match roomIdOf req.id with
    | none => Except.error CreateRoomError.invalid_room_id
    | some roomId =>
      match gameRoomRoleFrom req.role with
      | none => Except.error CreateRoomError.invalid_role
      | some role =>
        if (findRoomById rooms roomId).isSome then Except.error CreateRoomError.room_id_taken
        else
          let user : User := { id := newUserId, nickname := nicknameOf req.nickname, isConnected := false }
          let room := GameRoom.new roomId settings
          let joined := room.onUserJoin role user
          if joined.2 = false then Except.error CreateRoomError.invalid_role
          else Except.ok (rooms ++ [joined.1], pending ++ [(user, role)])

/-! ## Session registry (helpers/user_manager.ts) and the socket
connection flow (controllers/socket_controller.ts)

The state below tracks one room together with the two expiring collections
of the shared `UserManager` and a counter of how many times a scheduled
timer actually invoked its removal callback. -/

structure SessionState where
  room : GameRoom
  pendingUsers : List (User × GameRoomRole)
  disconnectedUsers : List (User × GameRoomRole)
  leaveRuns : Nat

/-- `findIndex` on a user id followed by `splice(index, 1)`: the list with
the first matching entry removed, and whether one was removed. -/
def spliceById (uid : String) : List (User × GameRoomRole) → List (User × GameRoomRole) × Bool
  | [] => ([], false)
  | e :: es =>
    if e.1.id = uid then (es, true)
    else
      let r := spliceById uid es
      (e :: r.1, r.2)

/-- `UserManager.removeFromPending(userId)`. -/
def UserManager.removeFromPending (s : SessionState) (uid : String) : SessionState × Bool :=
  let r := spliceById uid s.pendingUsers
  ({ s with pendingUsers := r.1 }, r.2)

/-- `UserManager.removeFromDisconnected(userId)`. -/
def UserManager.removeFromDisconnected (s : SessionState) (uid : String) : SessionState × Bool :=
  let r := spliceById uid s.disconnectedUsers
  ({ s with disconnectedUsers := r.1 }, r.2)

/-- The push performed by `UserManager.addPendingUser`. The scheduled 10s
timer is modelled separately by `UserManager.pendingExpiryFire`. -/
def UserManager.addPendingEntry (s : SessionState) (u : User) (role : GameRoomRole) : SessionState :=
  { s with pendingUsers := s.pendingUsers ++ [(u, role)] }

/-- The push performed by `UserManager.addDisconnectedUser`; its 60s timer
is not needed below. -/
def UserManager.addDisconnectedEntry (s : SessionState) (u : User) (role : GameRoomRole) : SessionState :=
  { s with disconnectedUsers := s.disconnectedUsers ++ [(u, role)] }

/-- The `setTimeout` body scheduled by `UserManager.addPendingUser`: it
calls `removeFromDisconnected(user.id)` and, when that removed an entry,
runs the supplied removal handler — which, for the join/create controllers,
is `() => room.onUserLeave(role, user)`. -/
def UserManager.pendingExpiryFire (s : SessionState) (u : User) (role : GameRoomRole) : SessionState :=
  let r := UserManager.removeFromDisconnected s u.id
  if r.2 then
    { r.1 with room := r.1.room.onUserLeave role u, leaveRuns := r.1.leaveRuns + 1 }
  else r.1

inductive ResolveStatus where
  | pendingFound
  | disconnectedFound
  | timeout
  deriving DecidableEq, Repr

/-- `UserManager.getPendingUserAndStatus(userId)`: look in the pending list
first, then the disconnected list. -/
def UserManager.getStatus (s : SessionState) (uid : String) : ResolveStatus :=
  match s.pendingUsers.find? (fun e => e.1.id == uid) with
  | some _ => ResolveStatus.pendingFound
  | none =>
    match s.disconnectedUsers.find? (fun e => e.1.id == uid) with
    | some _ => ResolveStatus.disconnectedFound
    | none => ResolveStatus.timeout

/-- The registry part of `SocketController.handleSocketConnection`: resolve
the presented id and remove the found entry from its collection; a miss is
rejected with connection_timeout. -/
def socketConnect (s : SessionState) (uid : String) : SessionState × ResolveStatus :=
  match UserManager.getStatus s uid with
  | ResolveStatus.pendingFound => ((UserManager.removeFromPending s uid).1, ResolveStatus.pendingFound)
  | ResolveStatus.disconnectedFound =>
    ((UserManager.removeFromDisconnected s uid).1, ResolveStatus.disconnectedFound)
  | ResolveStatus.timeout => (s, ResolveStatus.timeout)

/-- The socket disconnect handler's registry effect: push the user onto the
disconnected collection (grace period). -/
def socketDisconnect (s : SessionState) (u : User) (role : GameRoomRole) : SessionState :=
  UserManager.addDisconnectedEntry s u role

/-- The tail of `postJoinRoom` once the room is found: seat the user and,
on success, register them as pending. -/
def joinRoomAddPending (s : SessionState) (u : User) (role : GameRoomRole) : SessionState × Bool :=
  let joined := s.room.onUserJoin role u
  if joined.2 then (UserManager.addPendingEntry { s with room := joined.1 } u role, true)
  else ({ s with room := joined.1 }, false)

/-! Concrete session scenario used by the registry claims: one user joins a
fresh room as Player1. -/

def demoUser : User := { id := "u1", nickname := none, isConnected := false }

def demoSession : SessionState :=
  { room := GameRoom.new "r" GameRoomSettings.mkDefault
    pendingUsers := [], disconnectedUsers := [], leaveRuns := 0 }

/-- State after the join-room command seats `demoUser` as Player1 and adds
the pending entry (its 10s expiry timer is now outstanding). -/
def demoJoined : SessionState := (joinRoomAddPending demoSession demoUser GameRoomRole.Player1).1

/-- State after the user then connects (entry promoted), disconnects (grace
entry added with its own 60s timer), in that order. -/
def demoDisconnected : SessionState :=
  socketDisconnect (socketConnect demoJoined "u1").1 demoUser GameRoomRole.Player1

/-! ## Claim theorems -/

/-- C1: the claim states that the winner getter performs the reference
line scan, reporting the first run of five same-colored stones. The code
instead raises a TypeError on every winner read for a board of size at
least five: `Game.generate` builds each line with `new Array(length).map`,
whose callback is never invoked on the holes of `new Array`, so every line
is a hole array and the scan dereferences `undefined`. This theorem
evaluates the embedded code at the failing inputs: a fresh size-15 game,
and a size-9 game whose board demonstrably holds five consecutive Black
stones at (0,0)…(0,4) — where the claim requires a Black winner — yet the
getter returns the TypeError instead of any winner value. -/
theorem c1_winner_getter_crashes :
    Game.winnerGet (Game.new 15 Side.Black) = Except.error JsError.typeError
    ∧ Game.winnerGet winDemoGame = Except.error JsError.typeError
    ∧ winDemoGame.board.spots { x := 0, y := 0 } = BoardSpot.Black
    ∧ winDemoGame.board.spots { x := 0, y := 1 } = BoardSpot.Black
    ∧ winDemoGame.board.spots { x := 0, y := 2 } = BoardSpot.Black
    ∧ winDemoGame.board.spots { x := 0, y := 3 } = BoardSpot.Black
    ∧ winDemoGame.board.spots { x := 0, y := 4 } = BoardSpot.Black
    ∧ winDemoGame.board.size = 9 :=
  ⟨rfl, rfl, rfl, rfl, rfl, rfl, rfl, rfl⟩

/-- C2: the claim states that the 10-second pending expiry removes the
never-connecting user from the pending collection, invokes the leave
callback (clearing the seat), and that a later connection is rejected with
connection_timeout. The scheduled body of `addPendingUser` instead calls
`removeFromDisconnected`, which finds nothing for a user who never
connected: the pending entry survives the timer, the leave handler never
runs, the seat stays occupied, and a later connection still resolves to
the pending status (it is accepted, not rejected). -/
theorem c2_pending_expiry_is_noop :
    (UserManager.pendingExpiryFire demoJoined demoUser GameRoomRole.Player1).pendingUsers
      = [(demoUser, GameRoomRole.Player1)]
    ∧ (UserManager.pendingExpiryFire demoJoined demoUser GameRoomRole.Player1).leaveRuns = 0
    ∧ (UserManager.pendingExpiryFire demoJoined demoUser GameRoomRole.Player1).room.player1
      = some demoUser
    ∧ (socketConnect (UserManager.pendingExpiryFire demoJoined demoUser GameRoomRole.Player1)
        "u1").2 = ResolveStatus.pendingFound := by
  refine ⟨rfl, rfl, rfl, rfl⟩

/-- C3: the claim states that once an entry has been resolved on connect,
the later firing of its scheduled expiry performs no action at all. In the
code, the stale timer of an already-promoted pending entry still calls
`removeFromDisconnected(user.id)`: if the same user has meanwhile
disconnected into the 60-second grace period, the 10-second pending timer
removes that grace entry, runs the pending leave callback, and clears the
seat — cutting the grace period short. The trace: join at t=0, connect at
t=1 (promotion), disconnect at t=5 (grace entry), pending timer fires at
t=10. -/
theorem c3_resolved_pending_expiry_still_acts :
    (socketConnect demoJoined "u1").2 = ResolveStatus.pendingFound
    ∧ demoDisconnected.disconnectedUsers = [(demoUser, GameRoomRole.Player1)]
    ∧ demoDisconnected.room.player1 = some demoUser
    ∧ (UserManager.pendingExpiryFire demoDisconnected demoUser GameRoomRole.Player1).disconnectedUsers
      = []
    ∧ (UserManager.pendingExpiryFire demoDisconnected demoUser GameRoomRole.Player1).leaveRuns = 1
    ∧ (UserManager.pendingExpiryFire demoDisconnected demoUser GameRoomRole.Player1).room.player1
      = none := by
  refine ⟨rfl, rfl, rfl, rfl, rfl, rfl⟩

/-- C4: `onUserJoin` seats Player1/Player2 exactly when the seat is empty
and no game is in progress, admits a spectator exactly when the settings
allow spectators, and leaves the room unchanged whenever it returns
false. -/
theorem c4_onUserJoin_seating (r : GameRoom) (u : User) :
    ((r.onUserJoin GameRoomRole.Player1 u).2 = true ↔ r.player1 = none ∧ r.gameInProgress = false)
    ∧ ((r.onUserJoin GameRoomRole.Player1 u).2 = true →
        (r.onUserJoin GameRoomRole.Player1 u).1 = { r with player1 := some u })
    ∧ ((r.onUserJoin GameRoomRole.Player2 u).2 = true ↔ r.player2 = none ∧ r.gameInProgress = false)
    ∧ ((r.onUserJoin GameRoomRole.Player2 u).2 = true →
        (r.onUserJoin GameRoomRole.Player2 u).1 = { r with player2 := some u })
    ∧ ((r.onUserJoin GameRoomRole.Spectator u).2 = true ↔ r.settings.allowSpectators = true)
    ∧ ((r.onUserJoin GameRoomRole.Spectator u).2 = true →
        (r.onUserJoin GameRoomRole.Spectator u).1 = { r with spectators := r.spectators ++ [u] })
    ∧ (∀ role : GameRoomRole, (r.onUserJoin role u).2 = false → (r.onUserJoin role u).1 = r) := by
  refine ⟨?_, ?_, ?_, ?_, ?_, ?_, ?_⟩
  · cases hp : r.player1 <;> cases hg : r.gameInProgress <;>
      simp [GameRoom.onUserJoin, hp, hg]
  · cases hp : r.player1 <;> cases hg : r.gameInProgress <;>
      simp [GameRoom.onUserJoin, hp, hg]
  · cases hp : r.player2 <;> cases hg : r.gameInProgress <;>
      simp [GameRoom.onUserJoin, hp, hg]
  · cases hp : r.player2 <;> cases hg : r.gameInProgress <;>
      simp [GameRoom.onUserJoin, hp, hg]
  · cases hs : r.settings.allowSpectators <;> simp [GameRoom.onUserJoin, hs]
  · cases hs : r.settings.allowSpectators <;> simp [GameRoom.onUserJoin, hs]
  · intro role
    cases role with
    | Player1 =>
      cases hp : r.player1 <;> cases hg : r.gameInProgress <;>
        simp [GameRoom.onUserJoin, hp, hg]
    | Player2 =>
      cases hp : r.player2 <;> cases hg : r.gameInProgress <;>
        simp [GameRoom.onUserJoin, hp, hg]
    | Spectator =>
      cases hs : r.settings.allowSpectators <;> simp [GameRoom.onUserJoin, hs]

/-- C4 witness: on a fresh room the Player1 join succeeds, by the theorem
applied at a concrete room. -/
theorem c4_onUserJoin_seating_witness :
    ((GameRoom.new "w1" GameRoomSettings.mkDefault).onUserJoin GameRoomRole.Player1 demoUser).2
      = true :=
  (c4_onUserJoin_seating (GameRoom.new "w1" GameRoomSettings.mkDefault) demoUser).1.mpr ⟨rfl, rfl⟩

/-- The seat occupancy and restart-vote observation of a room. -/
def seatState (r : GameRoom) :
    Option User × Option User × List User × Bool × Bool :=
  (r.player1, r.player2, r.spectators, r.player1Restart, r.player2Restart)

def demoUser2 : User := { id := "u2", nickname := none, isConnected := false }

/-- A room whose Player1 seat is already held by `demoUser2`. -/
def occupiedRoom : GameRoom :=
  { GameRoom.new "c5" GameRoomSettings.mkDefault with player1 := some demoUser2 }

/-- C5 counterexample: with the Player1 seat held by another user, a
Player1 join by `demoUser` returns false and changes nothing, but the
subsequent `onUserLeave` still clears the seat unconditionally: the seat
ends `none` although it held `demoUser2` before the round trip, so
join-then-leave does not restore the pre-join state for every room
state. -/
theorem c5_join_leave_counterexample :
    ((occupiedRoom.onUserJoin GameRoomRole.Player1 demoUser).1.onUserLeave
        GameRoomRole.Player1 demoUser).player1 = none
    ∧ occupiedRoom.player1 = some demoUser2 :=
  ⟨rfl, rfl⟩

theorem spliceFirst_append_self (u : User) (l : List User) (h : u ∉ l) :
    spliceFirst u (l ++ [u]) = l := by
  induction l with
  | nil => simp [spliceFirst]
  | cons v vs ih =>
    have hne : v ≠ u := fun hvu => h (hvu ▸ List.mem_cons_self v vs)
    have hnotin : u ∉ vs := fun hin => h (List.mem_cons_of_mem v hin)
    simp [spliceFirst, hne, ih hnotin]

/-- C5 amended: when the join succeeds, and the joined seat's restart vote
was already clear (for a player role), and the user was not already a
spectator (for the spectator role), then `onUserJoin` followed by
`onUserLeave` restores the seats, the spectator list and both restart
votes exactly. -/
theorem c5_join_leave_restores (r : GameRoom) (role : GameRoomRole) (u : User)
    (hok : (r.onUserJoin role u).2 = true)
    (h1 : role = GameRoomRole.Player1 → r.player1Restart = false)
    (h2 : role = GameRoomRole.Player2 → r.player2Restart = false)
    (h3 : role = GameRoomRole.Spectator → u ∉ r.spectators) :
    seatState ((r.onUserJoin role u).1.onUserLeave role u) = seatState r := by
  cases role with
  | Player1 =>
    cases hp : r.player1 <;> cases hg : r.gameInProgress <;>
      simp [GameRoom.onUserJoin, hp, hg] at hok ⊢ <;>
      simp [GameRoom.onUserLeave, seatState, hp, h1 rfl]
  | Player2 =>
    cases hp : r.player2 <;> cases hg : r.gameInProgress <;>
      simp [GameRoom.onUserJoin, hp, hg] at hok ⊢ <;>
      simp [GameRoom.onUserLeave, seatState, hp, h2 rfl]
  | Spectator =>
    cases hs : r.settings.allowSpectators <;>
      simp [GameRoom.onUserJoin, hs] at hok ⊢ <;>
      simp [GameRoom.onUserLeave, seatState, spliceFirst_append_self u r.spectators (h3 rfl)]

/-- C5 amended witness: the round trip on a fresh room, by the theorem
applied at concrete inputs. -/
theorem c5_join_leave_restores_witness :
    seatState (((GameRoom.new "w5" GameRoomSettings.mkDefault).onUserJoin
        GameRoomRole.Player1 demoUser).1.onUserLeave GameRoomRole.Player1 demoUser)
      = seatState (GameRoom.new "w5" GameRoomSettings.mkDefault) :=
  c5_join_leave_restores (GameRoom.new "w5" GameRoomSettings.mkDefault) GameRoomRole.Player1
    demoUser rfl (fun _ => rfl) (fun h => nomatch h) (fun h => nomatch h)

/-- C6: when a seated player's restart vote is processed after a game has
ended (game present, not in progress, vote not yet cast) and the vote makes
`canResetGame` true, the handler clears both votes and discards the game;
when both seats are filled it additionally starts a fresh game in the same
operation and emits user-set-restart followed by start-game, and when a
seat is empty it emits user-set-restart followed by game-reset — never
game-reset in the auto-start case. -/
theorem c6_restart_vote_reset (r : GameRoom) (role : GameRoomRole)
    (hrole : role = GameRoomRole.Player1 ∨ role = GameRoomRole.Player2)
    (hprog : r.gameInProgress = false)
    (hgame : r.game.isSome = true)
    (hseat : (r.seatOf role).isSome = true)
    (hvote : r.voteOf role = false)
    (hcan : (r.voteSet role).canResetGame = true) :
    ((SocketController.restartHandler r role).1.player1Restart = false)
    ∧ ((SocketController.restartHandler r role).1.player2Restart = false)
    ∧ (r.player1.isSome = true ∧ r.player2.isSome = true →
        (SocketController.restartHandler r role).1.game
          = some (Game.new r.settings.boardSize Side.Black)
        ∧ (SocketController.restartHandler r role).1.gameInProgress = true
        ∧ (SocketController.restartHandler r role).2
          = [RoomEventDesc.userSetRestart, RoomEventDesc.startGame])
    ∧ (¬(r.player1.isSome = true ∧ r.player2.isSome = true) →
        (SocketController.restartHandler r role).1.game = none
        ∧ (SocketController.restartHandler r role).2
          = [RoomEventDesc.userSetRestart, RoomEventDesc.gameReset]) := by
  obtain ⟨g0, hg0⟩ : ∃ g0, r.game = some g0 := by
    cases hg : r.game with
    | none => rw [hg] at hgame; exact absurd hgame (by simp)
    | some g => exact ⟨g, rfl⟩
  have hguard1 : (GameRoomRole.Player1 == GameRoomRole.Spectator
      || r.gameInProgress || r.game.isNone) = false := by rw [hprog, hg0]; rfl
  have hguard2 : (GameRoomRole.Player2 == GameRoomRole.Spectator
      || r.gameInProgress || r.game.isNone) = false := by rw [hprog, hg0]; rfl
  rcases hrole with h | h <;> subst h
  · simp only [GameRoom.voteOf] at hvote
    simp only [GameRoom.voteSet] at hcan
    cases hs : (r.player1.isSome && r.player2.isSome) with
    | true =>
      rcases Bool.and_eq_true _ _ |>.mp hs with ⟨ha, hb⟩
      simp [SocketController.restartHandler, SocketController.restartFinish,
        GameRoom.resetGame, GameRoom.canStartGame, GameRoom.startGame,
        hguard1, hvote, hcan, ha, hb]
    | false =>
      refine ?_
      have hnboth : ¬(r.player1.isSome = true ∧ r.player2.isSome = true) := by
        intro hboth
        rw [hboth.1, hboth.2] at hs
        exact absurd hs (by simp)
      simp [SocketController.restartHandler, SocketController.restartFinish,
        GameRoom.resetGame, GameRoom.canStartGame, GameRoom.startGame,
        hguard1, hvote, hcan, hs, hnboth]
  · simp only [GameRoom.voteOf] at hvote
    simp only [GameRoom.voteSet] at hcan
    cases hs : (r.player1.isSome && r.player2.isSome) with
    | true =>
      rcases Bool.and_eq_true _ _ |>.mp hs with ⟨ha, hb⟩
      simp [SocketController.restartHandler, SocketController.restartFinish,
        GameRoom.resetGame, GameRoom.canStartGame, GameRoom.startGame,
        hguard2, hvote, hcan, ha, hb]
    | false =>
      have hnboth : ¬(r.player1.isSome = true ∧ r.player2.isSome = true) := by
        intro hboth
        rw [hboth.1, hboth.2] at hs
        exact absurd hs (by simp)
      simp [SocketController.restartHandler, SocketController.restartFinish,
        GameRoom.resetGame, GameRoom.canStartGame, GameRoom.startGame,
        hguard2, hvote, hcan, hs, hnboth]

/-- A finished-game room used to instantiate the restart theorem: both
seats taken, a finished game retained, Player1 already voted. -/
def restartDemoRoom : GameRoom :=
  { GameRoom.new "d6" GameRoomSettings.mkDefault with
      player1 := some demoUser2, player2 := some demoUser
      game := some (Game.new 15 Side.Black), gameInProgress := false, player1Restart := true }

/-- C6 witness: Player2's vote in `restartDemoRoom` resets and immediately
restarts, emitting user-set-restart then start-game, by the theorem
applied at concrete inputs. -/
theorem c6_restart_vote_reset_witness :
    (SocketController.restartHandler restartDemoRoom GameRoomRole.Player2).1.player1Restart = false
    ∧ (SocketController.restartHandler restartDemoRoom GameRoomRole.Player2).1.game
      = some (Game.new 15 Side.Black)
    ∧ (SocketController.restartHandler restartDemoRoom GameRoomRole.Player2).2
      = [RoomEventDesc.userSetRestart, RoomEventDesc.startGame] := by
  have h := c6_restart_vote_reset restartDemoRoom GameRoomRole.Player2 (Or.inr rfl)
    rfl rfl rfl rfl rfl
  have h3 := h.2.2.1 ⟨rfl, rfl⟩
  exact ⟨h.1, h3.1, h3.2.2⟩

/-- C8 counterexample: a supplied boardSize that is not a number — here the
string "ten", which in particular is not an integer in [9, 19] — does not
yield the invalid_board_size error the claim requires; `fromJson` silently
substitutes the default 15 and accepts the settings. -/
theorem c8_fromJson_counterexample :
    GameRoomSettings.fromJson
        (some { boardSize := JsVal.str "ten", allowSpectators := JsVal.undef, isPublic := JsVal.undef })
      = Except.ok { boardSize := 15, allowSpectators := true, isPublic := true } :=
  rfl

/-- C8 amended: `fromJson` checks only the range of a numeric boardSize —
an integer boardSize is accepted carrying exactly that value if and only if
it lies in [9, 19], a numeric boardSize outside the range yields
invalid_board_size, while a non-numeric boardSize never yields an error and
is silently replaced by the default 15; an absent settings object yields
all defaults. -/
theorem c8_fromJson_range_only (j : SettingsJson) (n : Int) :
    (j.boardSize = JsVal.num n →
      GameRoomSettings.fromJson (some j)
        = if n < 9 ∨ 19 < n then Except.error GameRoomSettingsError.invalid_board_size
          else Except.ok { boardSize := n, allowSpectators := boolField j.allowSpectators,
                           isPublic := boolField j.isPublic })
    ∧ ((∀ m : Int, j.boardSize ≠ JsVal.num m) →
      GameRoomSettings.fromJson (some j)
        = Except.ok { boardSize := 15, allowSpectators := boolField j.allowSpectators,
                      isPublic := boolField j.isPublic })
    ∧ GameRoomSettings.fromJson none
      = Except.ok { boardSize := 15, allowSpectators := true, isPublic := true } := by
  rcases j with ⟨bs, as, ip⟩
  refine ⟨?_, ?_, rfl⟩
  · intro h
    subst h
    cases as <;> cases ip <;> simp [GameRoomSettings.fromJson, boolField]
  · intro h
    cases bs with
    | num m => exact absurd rfl (h m)
    | undef => cases as <;> cases ip <;> norm_num [GameRoomSettings.fromJson, boolField]
    | boolean b => cases as <;> cases ip <;> norm_num [GameRoomSettings.fromJson, boolField]
    | str s => cases as <;> cases ip <;> norm_num [GameRoomSettings.fromJson, boolField]

/-- C8 amended witness: an in-range integer boardSize is accepted carrying
exactly that value, by the theorem applied at a concrete input. -/
theorem c8_fromJson_range_only_witness :
    GameRoomSettings.fromJson
        (some { boardSize := JsVal.num 12, allowSpectators := JsVal.undef, isPublic := JsVal.undef })
      = Except.ok { boardSize := 12, allowSpectators := true, isPublic := true } := by
  have h := (c8_fromJson_range_only
    { boardSize := JsVal.num 12, allowSpectators := JsVal.undef, isPublic := JsVal.undef } 12).1 rfl
  rw [if_neg (by norm_num)] at h
  exact h

/-- C9 counterexample: a create-room request whose id is "ok" but whose
settings carry the out-of-range boardSize 20 fails with invalid_board_size,
not with the room_id_taken error the claim requires of every create-room
request with id "ok". -/
theorem c9_create_ok_counterexample :
    postCreateRoom RoomManager.initialRooms []
      { settings := some { boardSize := JsVal.num 20, allowSpectators := JsVal.undef,
                           isPublic := JsVal.undef },
        id := JsVal.str "ok", role := JsVal.num 1, nickname := JsVal.undef } "u9"
      = Except.error CreateRoomError.invalid_board_size :=
  rfl

/-- C9 amended: the shared directory is initialized with exactly one room,
id "ok", with the default settings (boardSize 15, spectators allowed,
public); every create-room request with id "ok" whose settings parse and
whose role is valid fails with room_id_taken whenever a room with id "ok"
is present — in particular on a freshly started server; and the "ok" room
is the initial public room listing. -/
theorem c9_ok_room_reserved (rooms : List GameRoom) (pending : List (User × GameRoomRole))
    (req : CreateRoomRequest) (uid : String)
    (hok : (findRoomById rooms "ok").isSome = true)
    (hid : req.id = JsVal.str "ok")
    (hsettings : ∃ s, GameRoomSettings.fromJson req.settings = Except.ok s)
    (hrole : (gameRoomRoleFrom req.role).isSome = true) :
    postCreateRoom rooms pending req uid = Except.error CreateRoomError.room_id_taken
    ∧ RoomManager.initialRooms
      = [GameRoom.new "ok" { boardSize := 15, allowSpectators := true, isPublic := true }]
    ∧ (getPublicRooms RoomManager.initialRooms).map (fun r => r.id) = ["ok"] := by
  obtain ⟨s, hs⟩ := hsettings
  have hrid : roomIdOf (JsVal.str "ok") = some "ok" := by decide
  cases hr : gameRoomRoleFrom req.role with
  | none => rw [hr] at hrole; exact absurd hrole (by simp)
  | some role =>
    refine ⟨?_, rfl, rfl⟩
    simp [postCreateRoom, hs, hid, hr, hrid, hok]

/-- C9 amended witness: on the freshly initialized directory, a create-room
request for id "ok" with default settings and role Player1 fails with
room_id_taken, by the theorem applied at concrete inputs. -/
theorem c9_ok_room_reserved_witness :
    postCreateRoom RoomManager.initialRooms []
      { settings := none, id := JsVal.str "ok", role := JsVal.num 1, nickname := JsVal.undef }
      "u3"
      = Except.error CreateRoomError.room_id_taken :=
  (c9_ok_room_reserved RoomManager.initialRooms []
    { settings := none, id := JsVal.str "ok", role := JsVal.num 1, nickname := JsVal.undef }
    "u3" rfl rfl ⟨GameRoomSettings.mkDefault, rfl⟩ rfl).1

/-! ## Engine lemmas shared by the move-contract and invariant claims -/

theorem Board.isValid_iff (b : Board) (p : Point) :
    b.isValid p = true ↔ (0 ≤ p.x ∧ p.x < b.size ∧ 0 ≤ p.y ∧ p.y < b.size) := by
  simp [Board.isValid, Bool.and_eq_true, decide_eq_true_eq, and_assoc]

theorem addStepRun_ok_iff (g : Game) (p : Point) :
    (Game.addStepRun g p).2 = none
      ↔ g.board.isValid p = true ∧ g.board.spots p = BoardSpot.Empty := by
  cases hv : g.board.isValid p with
  | false => simp [Game.addStepRun, hv]
  | true =>
    by_cases hsp : g.board.spots p = BoardSpot.Empty <;> simp [Game.addStepRun, hv, hsp]

theorem addStepRun_ok_fst (g : Game) (p : Point)
    (hv : g.board.isValid p = true) (hsp : g.board.spots p = BoardSpot.Empty) :
    (Game.addStepRun g p).1
      = { g with
            board := g.board.setSpotD p (spotOfSide g.currentSide)
            steps := g.steps ++ [p]
            shouldRecalculateWinner := true
            currentSide := toggleSide g.currentSide } := by
  simp [Game.addStepRun, hv, hsp]

theorem spotOfSide_ne_empty (s : Side) : spotOfSide s ≠ BoardSpot.Empty := by
  cases s <;> simp [spotOfSide]

/-- C7: `addStep` fails with OutOfBounds exactly on points with a
coordinate outside [0, boardSize); fails with SpotTaken exactly on
in-range, non-empty spots; on failure the game state is returned completely
unchanged; on success it places the current side's stone, appends the point
to the history, marks the cached winner dirty, and flips the side — and
nothing else. -/
theorem c7_addStep_contract (g : Game) (p : Point) :
    ((Game.addStepRun g p).2 = some GameError.OutOfBounds ↔
      ¬(0 ≤ p.x ∧ p.x < g.board.size ∧ 0 ≤ p.y ∧ p.y < g.board.size))
    ∧ ((Game.addStepRun g p).2 = some GameError.SpotTaken ↔
      (0 ≤ p.x ∧ p.x < g.board.size ∧ 0 ≤ p.y ∧ p.y < g.board.size)
        ∧ g.board.spots p ≠ BoardSpot.Empty)
    ∧ ((Game.addStepRun g p).2 ≠ none → (Game.addStepRun g p).1 = g)
    ∧ ((Game.addStepRun g p).2 = none →
        (Game.addStepRun g p).1
          = { g with
                board := g.board.setSpotD p (spotOfSide g.currentSide)
                steps := g.steps ++ [p]
                shouldRecalculateWinner := true
                currentSide := toggleSide g.currentSide })
    ∧ toggleSide Side.Black = Side.White ∧ toggleSide Side.White = Side.Black := by
  have hiff := Board.isValid_iff g.board p
  cases hv : g.board.isValid p with
  | false =>
    have hnb : ¬(0 ≤ p.x ∧ p.x < g.board.size ∧ 0 ≤ p.y ∧ p.y < g.board.size) := by
      rw [← hiff, hv]; simp
    simp [Game.addStepRun, hv, hnb, toggleSide]
  | true =>
    have hb := hiff.mp hv
    by_cases hsp : g.board.spots p = BoardSpot.Empty <;>
      simp [Game.addStepRun, hv, hb, hsp, toggleSide]

/-- C7 witness: a negative coordinate is rejected with OutOfBounds, by the
theorem applied at a concrete game and point. -/
theorem c7_addStep_contract_witness :
    (Game.addStepRun (Game.new 9 Side.Black) { x := -1, y := 0 }).2
      = some GameError.OutOfBounds :=
  (c7_addStep_contract (Game.new 9 Side.Black) { x := -1, y := 0 }).1.mpr (by decide)

/-! ## Reachable games and their invariants -/

/-- The given side toggled `n` times. -/
def toggleIter : Nat → Side → Side
  | 0, s => s
  | n + 1, s => toggleSide (toggleIter n s)

/-- The grid positions of a board, as enumerated by the constructor loops. -/
def boardGrid (size : Int) : List Point :=
  (List.range size.toNat).flatMap fun (i : Nat) =>
    (List.range size.toNat).map fun (j : Nat) => { x := Int.ofNat i, y := Int.ofNat j }

/-- The number of non-empty spots of a board. -/
def countStones (b : Board) : Nat :=
  (boardGrid b.size).countP fun p => decide (b.spots p ≠ BoardSpot.Empty)

/-- The games reachable from a freshly constructed game by successful
`addStep` calls. -/
inductive Reached : Game → Prop
  | base (size : Int) (s0 : Side) : Reached (Game.new size s0)
  | step {g : Game} (p : Point) (h : Reached g) (hok : (Game.addStepRun g p).2 = none) :
      Reached (Game.addStepRun g p).1

theorem toggleSide_toggleSide (s : Side) : toggleSide (toggleSide s) = s := by
  cases s <;> rfl

theorem toggleIter_eq_self_iff (n : Nat) (s : Side) : toggleIter n s = s ↔ n % 2 = 0 := by
  have hmod : ∀ m : Nat, toggleIter m s = if m % 2 = 0 then s else toggleSide s := by
    intro m
    induction m with
    | zero => simp [toggleIter]
    | succ k ih =>
      rw [toggleIter, ih]
      by_cases hk : k % 2 = 0
      · have hk1 : ¬((k + 1) % 2 = 0) := by omega
        simp [hk, hk1]
      · have hk1 : (k + 1) % 2 = 0 := by omega
        simp [hk, hk1, toggleSide_toggleSide]
  rw [hmod n]
  by_cases hn : n % 2 = 0 <;> simp [hn]
  cases s <;> simp [toggleSide]

theorem mem_boardGrid {size : Int} {p : Point} :
    p ∈ boardGrid size ↔ 0 ≤ p.x ∧ p.x < size ∧ 0 ≤ p.y ∧ p.y < size := by
  rw [boardGrid, List.mem_flatMap]
  constructor
  · rintro ⟨i, hi, hmem2⟩
    rw [List.mem_range] at hi
    obtain ⟨j, hj, heq⟩ := List.mem_map.mp hmem2
    rw [List.mem_range] at hj
    have hx : p.x = (i : Int) := by rw [← heq]; rfl
    have hy : p.y = (j : Int) := by rw [← heq]; rfl
    rw [hx, hy]
    refine ⟨?_, ?_, ?_, ?_⟩ <;> omega
  · rintro ⟨hx0, hxs, hy0, hys⟩
    refine ⟨p.x.toNat, ?_, ?_⟩
    · rw [List.mem_range]; omega
    · apply List.mem_map.mpr
      refine ⟨p.y.toNat, ?_, ?_⟩
      · rw [List.mem_range]; omega
      · have h1 : ((p.x.toNat : Int)) = p.x := by omega
        have h2 : ((p.y.toNat : Int)) = p.y := by omega
        calc ({ x := (p.x.toNat : Int), y := (p.y.toNat : Int) } : Point)
            = { x := p.x, y := p.y } := by rw [h1, h2]
          _ = p := rfl

theorem boardGrid_nodup (size : Int) : (boardGrid size).Nodup := by
  rw [boardGrid, List.nodup_flatMap]
  constructor
  · intro i _
    refine List.Nodup.map ?_ (List.nodup_range _)
    intro a b hab
    injection hab with h1 h2
    exact Int.ofNat.inj h2
  · refine List.Pairwise.imp ?_ (List.nodup_range size.toNat)
    intro a b hab
    simp only [Function.onFun]
    intro q hqa hqb
    rw [List.mem_map] at hqa hqb
    obtain ⟨j1, _, hq1⟩ := hqa
    obtain ⟨j2, _, hq2⟩ := hqb
    rw [← hq1] at hq2
    injection hq2 with h1 h2
    exact hab (Int.ofNat.inj h1).symm

theorem countP_flip_one {α : Type} (x : α) :
    ∀ (l : List α) (f g : α → Bool), x ∈ l → l.Nodup → f x = false → g x = true →
      (∀ y ∈ l, y ≠ x → g y = f y) → l.countP g = l.countP f + 1 := by
  intro l
  induction l with
  | nil =>
    intro f g hx _ _ _ _
    cases hx
  | cons a t ih =>
    intro f g hx hnd hfx hgx hagree
    rcases List.mem_cons.mp hx with rfl | hxt
    · have hxt : x ∉ t := (List.nodup_cons.mp hnd).1
      have ht : t.countP g = t.countP f := by
        apply List.countP_congr
        intro y hy
        have hne : y ≠ x := fun hya => hxt (hya ▸ hy)
        rw [hagree y (List.mem_cons_of_mem x hy) hne]
      simp [List.countP_cons, hfx, hgx, ht]
    · have hax : a ≠ x := by
        intro hax
        exact (List.nodup_cons.mp hnd).1 (hax ▸ hxt)
      have ha : g a = f a := hagree a (List.mem_cons_self a t) hax
      have ht := ih f g hxt (List.nodup_cons.mp hnd).2 hfx hgx
        (fun y hy hne => hagree y (List.mem_cons_of_mem a hy) hne)
      simp only [List.countP_cons, ha, ht]
      omega

/-- The combined invariant of reachable games, proved by induction over the
reachability derivation. -/
theorem reached_invariants (g : Game) (h : Reached g) :
    g.steps.Nodup
    ∧ (∀ p ∈ g.steps, g.board.isValid p = true)
    ∧ (∀ i : Nat, ∀ hi : i < g.steps.length,
        g.board.spots (g.steps.get ⟨i, hi⟩) = spotOfSide (toggleIter i g.initialSide))
    ∧ (∀ p : Point, p ∉ g.steps → g.board.spots p = BoardSpot.Empty)
    ∧ countStones g.board = g.steps.length
    ∧ g.currentSide = toggleIter g.steps.length g.initialSide := by
  induction h with
  | base size s0 =>
    refine ⟨List.nodup_nil, ?_, ?_, ?_, ?_, rfl⟩
    · intro p hp
      exact absurd hp (List.not_mem_nil p)
    · intro i hi
      exact absurd hi (Nat.not_lt_zero i)
    · intro q _
      rfl
    · show countStones (Board.new size) = 0
      rw [countStones]
      apply List.countP_eq_zero.mpr
      intro q _
      simp [Board.new]
  | step p hr hok ih =>
    rename_i g0
    obtain ⟨hv, hsp⟩ := (addStepRun_ok_iff g0 p).mp hok
    obtain ⟨ihnd, ihvalid, ihspot, ihempty, ihcount, ihside⟩ := ih
    rw [addStepRun_ok_fst g0 p hv hsp]
    have hpnot : p ∉ g0.steps := by
      intro hmem
      obtain ⟨⟨i, hi⟩, hget⟩ := List.get_of_mem hmem
      have hsp2 := ihspot i hi
      rw [hget, hsp] at hsp2
      exact spotOfSide_ne_empty _ hsp2.symm
    refine ⟨?_, ?_, ?_, ?_, ?_, ?_⟩
    · show (g0.steps ++ [p]).Nodup
      rw [List.nodup_append]
      exact ⟨ihnd, List.nodup_singleton p, fun a ha hap => hpnot ((List.mem_singleton.mp hap) ▸ ha)⟩
    · show ∀ q ∈ g0.steps ++ [p], g0.board.isValid q = true
      intro q hq
      rcases List.mem_append.mp hq with hq0 | hq1
      · exact ihvalid q hq0
      · rw [List.mem_singleton.mp hq1]
        exact hv
    · show ∀ i : Nat, ∀ hi : i < (g0.steps ++ [p]).length,
        (g0.board.setSpotD p (spotOfSide g0.currentSide)).spots ((g0.steps ++ [p]).get ⟨i, hi⟩)
          = spotOfSide (toggleIter i g0.initialSide)
      intro i hi
      by_cases hilt : i < g0.steps.length
      · have hgetl : (g0.steps ++ [p]).get ⟨i, hi⟩ = g0.steps.get ⟨i, hilt⟩ := by
          simp [List.get_eq_getElem, List.getElem_append_left hilt]
        rw [hgetl]
        have hne : g0.steps.get ⟨i, hilt⟩ ≠ p := fun hq => hpnot (hq ▸ List.get_mem _ _ _)
        show (if g0.steps.get ⟨i, hilt⟩ = p then spotOfSide g0.currentSide
            else g0.board.spots (g0.steps.get ⟨i, hilt⟩)) = spotOfSide (toggleIter i g0.initialSide)
        rw [if_neg hne]
        exact ihspot i hilt
      · have hi2 : i < g0.steps.length + 1 := by
          have := hi
          rw [List.length_append, List.length_singleton] at this
          exact this
        have hieq : i = g0.steps.length := by omega
        subst hieq
        have hgetr : (g0.steps ++ [p]).get ⟨g0.steps.length, hi⟩ = p := by
          simp [List.get_eq_getElem]
        rw [hgetr]
        show (if p = p then spotOfSide g0.currentSide else g0.board.spots p)
          = spotOfSide (toggleIter g0.steps.length g0.initialSide)
        rw [if_pos rfl, ihside]
    · show ∀ q : Point, q ∉ g0.steps ++ [p] →
        (g0.board.setSpotD p (spotOfSide g0.currentSide)).spots q = BoardSpot.Empty
      intro q hq
      have hqp : q ≠ p := fun hqp => hq (by
        rw [hqp]
        exact List.mem_append_right _ (List.mem_singleton_self p))
      have hq0 : q ∉ g0.steps := fun hin => hq (List.mem_append_left _ hin)
      show (if q = p then spotOfSide g0.currentSide else g0.board.spots q) = BoardSpot.Empty
      rw [if_neg hqp]
      exact ihempty q hq0
    · show countStones (g0.board.setSpotD p (spotOfSide g0.currentSide))
        = (g0.steps ++ [p]).length
      rw [List.length_append, List.length_singleton, ← ihcount]
      show (boardGrid g0.board.size).countP
          (fun q => decide ((g0.board.setSpotD p (spotOfSide g0.currentSide)).spots q ≠ BoardSpot.Empty))
        = countStones g0.board + 1
      rw [countStones]
      apply countP_flip_one p _
        (fun q => decide (g0.board.spots q ≠ BoardSpot.Empty))
        (fun q => decide ((g0.board.setSpotD p (spotOfSide g0.currentSide)).spots q ≠ BoardSpot.Empty))
        (mem_boardGrid.mpr ((Board.isValid_iff _ _).mp hv)) (boardGrid_nodup _) ?_ ?_ ?_
      · simp [hsp]
      · show decide ((if p = p then spotOfSide g0.currentSide else g0.board.spots p) ≠ BoardSpot.Empty)
          = true
        rw [if_pos rfl]
        simp [spotOfSide_ne_empty]
      · intro q _ hqp
        show decide ((if q = p then spotOfSide g0.currentSide else g0.board.spots q) ≠ BoardSpot.Empty)
          = decide (g0.board.spots q ≠ BoardSpot.Empty)
        rw [if_neg hqp]
    · show toggleSide g0.currentSide
        = toggleIter (g0.steps ++ [p]).length g0.initialSide
      rw [ihside, List.length_append, List.length_singleton]
      rfl

/-- C10: in every game reachable from a fresh game by successful `addStep`
calls, the recorded steps are pairwise distinct and in range, the i-th step
carries the stone of the initial side toggled i times, every spot off the
step history is empty, the number of stones on the board equals the number
of steps, and the current side equals the initial side exactly when the
number of steps is even. -/
theorem c10_reachable_invariants (g : Game) (h : Reached g) :
    g.steps.Nodup
    ∧ (∀ p ∈ g.steps, 0 ≤ p.x ∧ p.x < g.board.size ∧ 0 ≤ p.y ∧ p.y < g.board.size)
    ∧ (∀ i : Nat, ∀ hi : i < g.steps.length,
        g.board.spots (g.steps.get ⟨i, hi⟩) = spotOfSide (toggleIter i g.initialSide))
    ∧ (∀ p : Point, p ∉ g.steps → g.board.spots p = BoardSpot.Empty)
    ∧ countStones g.board = g.steps.length
    ∧ (g.currentSide = g.initialSide ↔ g.steps.length % 2 = 0) := by
  obtain ⟨h1, h2, h3, h4, h5, h6⟩ := reached_invariants g h
  refine ⟨h1, fun p hp => (Board.isValid_iff _ _).mp (h2 p hp), h3, h4, h5, ?_⟩
  rw [h6]
  exact toggleIter_eq_self_iff _ _

/-- The game after one successful step from a fresh size-9 game. -/
def reachDemoGame : Game := (Game.addStepRun (Game.new 9 Side.Black) { x := 0, y := 0 }).1

/-- C10 witness: the invariants instantiated at a concrete reachable game,
by the theorem applied to a two-node reachability derivation. -/
theorem c10_reachable_invariants_witness :
    reachDemoGame.steps.Nodup
    ∧ countStones reachDemoGame.board = reachDemoGame.steps.length
    ∧ (reachDemoGame.currentSide = reachDemoGame.initialSide
        ↔ reachDemoGame.steps.length % 2 = 0) := by
  have h := c10_reachable_invariants reachDemoGame
    (Reached.step { x := 0, y := 0 } (Reached.base 9 Side.Black) rfl)
  exact ⟨h.1, h.2.2.2.2.1, h.2.2.2.2.2⟩
